import Mathlib

/-!
# Verification of the Zeiterfassung time-ledger engine

Shallow embedding of `src/streamlit_app.py` (a Streamlit time-tracking app).

Modelling conventions:

* Timestamps.  The code stores UTC instants as strings `"YYYY-MM-DD HH:MM:SS"`
  and parses them back with `strptime`; on its domain this string encoding is a
  bijection with second-granularity datetimes.  We model an instant as its
  UTC epoch-second count (`Int`).  `datetime` subtraction followed by
  `int(...total_seconds())` is then plain `Int` subtraction, and Python's
  `divmod` by the positive constant `60` is Lean's `Int` `/` and `%`
  (Euclidean division by a positive divisor is floor division, which is what
  Python uses).

* Calendar.  `astimezone(ZoneInfo("Europe/Zurich")).strftime("%Y-%m")` is
  modelled by converting the shifted epoch count back to a civil date with the
  standard days-from-civil / civil-from-days algorithms and taking the
  `(year, month)` pair; for four-digit years the string order of `"YYYY-MM"`
  keys coincides with the lexicographic order on `(year, month)` used here.
  The Europe/Zurich offset follows the IANA rule in force since 1996:
  UTC+2 from 01:00 UTC on the last Sunday of March until 01:00 UTC on the
  last Sunday of October, UTC+1 otherwise.

* Store.  The SQL tables become lists; the partial unique index
  `uq_active_session_per_user` (`ON sessions (user_id) WHERE end_ts IS NULL`)
  means an insert of a running session commits iff no running session for the
  same user exists, atomically — `start_op` models exactly that, raising
  `conflict` (the handler's `IntegrityError` branch) otherwise.

* Failure injection.  Each button handler commits its state change and its
  log entry in two separate transactions (`safe_commit` inside the handler,
  then `add_log`).  The `logOk : Bool` parameter models whether the second
  (log) transaction commits; `logOk = false` is a `SQLAlchemyError` raised by
  `add_log`, which the handler re-raises after the state change is already
  committed.
-/

namespace Zeiterfassung

/-- Models `minutes_between_utc_str` (src lines 110–116): with `total` the elapsed
seconds, `divmod(total, 60)` then `max(0, mins + (1 if secs >= 30 else 0))`. -/
def minutes_between (start_s end_s : Int) : Int :=
  let total := end_s - start_s
  let mins := total / 60
  let secs := total % 60
  max 0 (mins + (if 30 ≤ secs then 1 else 0))

/-- Models `seconds_between_utc_str` (src lines 118–121): `max(0, int((end - start).total_seconds()))`. -/
def seconds_between (start_s end_s : Int) : Int :=
  max 0 (end_s - start_s)

/-- Civil date → days since 1970-01-01 (proleptic Gregorian), the classic
days-from-civil algorithm; models what `datetime` dates denote. -/
def days_from_civil (y m d : Int) : Int :=
  let yy := if m ≤ 2 then y - 1 else y
  let era := yy / 400
  let yoe := yy - era * 400
  let mp := (m + 9) % 12
  let doy := (153 * mp + 2) / 5 + d - 1
  let doe := yoe * 365 + yoe / 4 - yoe / 100 + doy
  era * 146097 + doe - 719468

/-- Days since 1970-01-01 → civil date `(year, month, day)`, the inverse
civil-from-days algorithm. -/
def civil_from_days (z : Int) : Int × Int × Int :=
  let z2 := z + 719468
  let era := z2 / 146097
  let doe := z2 - era * 146097
  let yoe := (doe - doe / 1460 + doe / 36524 - doe / 146096) / 365
  let y := yoe + era * 400
  let doy := doe - (365 * yoe + yoe / 4 - yoe / 100)
  let mp := (5 * doy + 2) / 153
  let d := doy - (153 * mp + 2) / 5 + 1
  let m := mp + (if mp < 10 then 3 else -9)
  (y + (if m ≤ 2 then 1 else 0), m, d)

/-- Day of week of an epoch day, Sunday = 0 (1970-01-01 was a Thursday). -/
def weekday (z : Int) : Int := (z + 4) % 7

/-- Epoch day of the last Sunday of a 31-day month (March / October). -/
def last_sunday (y month : Int) : Int :=
  let d31 := days_from_civil y month 31
  d31 - weekday d31

/-- UTC offset (seconds) of `ZoneInfo("Europe/Zurich")` at UTC instant `t`,
per the IANA rule in force since 1996: UTC+2 between 01:00 UTC on the last
Sunday of March and 01:00 UTC on the last Sunday of October, else UTC+1. -/
def zurich_offset (t : Int) : Int :=
  let y := (civil_from_days (t / 86400)).1
  let dstStart := last_sunday y 3 * 86400 + 3600
  let dstEnd := last_sunday y 10 * 86400 + 3600
  if dstStart ≤ t ∧ t < dstEnd then 7200 else 3600

/-- Models `month_key_local` (src lines 123–125): the `(year, month)` of the instant
in Europe/Zurich local time (the code's `"%Y-%m"` string key; for four-digit
years string order equals lexicographic order on the pair). -/
def month_key_local (t : Int) : Int × Int :=
  let localT := t + zurich_offset t
  let c := civil_from_days (localT / 86400)
  (c.1, c.2.1)

/-- Epoch seconds of a UTC civil datetime; models `utc_str_to_dt` applied to
the string `"y-m-d h:mi:s"`. -/
def utc_epoch (y m d h mi s : Int) : Int :=
  days_from_civil y m d * 86400 + h * 3600 + mi * 60 + s

/-- Values of the `Log.kind` column (src line 72): `start | stop | adjust`. -/
inductive LogKind
  | start
  | stop
  | adjust
deriving DecidableEq, Repr

/-- A `sessions` table row (src lines 49–57). -/
structure WorkSession where
  id : Nat
  user_id : Nat
  start_ts : Int
  end_ts : Option Int
  minutes : Option Int
deriving DecidableEq, Repr

/-- An `adjustments` table row (src lines 59–66). -/
structure Adjustment where
  user_id : Nat
  minutes : Int
  reason : String
  created_ts : Int
deriving DecidableEq, Repr

/-- A `logs` table row (src lines 68–76). -/
structure LogEntry where
  user_id : Nat
  kind : LogKind
  minutes : Option Int
  ts : Int
  details : String
deriving DecidableEq, Repr

/-- The persistent store: the three tables the claims touch, in insertion
(= primary-key) order. -/
structure DB where
  sessions : List WorkSession
  adjustments : List Adjustment
  logs : List LogEntry
deriving DecidableEq, Repr

/-- A row is "active" (running) for `uid` iff it belongs to `uid` and has a
NULL `end_ts` — the predicate of the partial unique index
`uq_active_session_per_user` (src lines 82–86). -/
def is_active (uid : Nat) (s : WorkSession) : Bool :=
  s.user_id == uid && s.end_ts == none

/-- Whether an active session for `uid` exists — what the partial unique
index tests atomically on insert. -/
def has_active (db : DB) (uid : Nat) : Bool :=
  db.sessions.any (is_active uid)

/-- Models `active_session` (src lines 187–193): the `uid` row with NULL `end_ts`,
ordered by `id DESC`, first result (i.e. the matching row of greatest id). -/
def active_session (db : DB) (uid : Nat) : Option WorkSession :=
  (db.sessions.filter (is_active uid)).foldl
    (fun acc s =>
      match acc with
      | none => some s
      | some t => if t.id < s.id then some s else some t)
    none

/-- Models `add_log` (src lines 195–204): appends one `logs` row in its own
transaction. -/
def add_log (db : DB) (uid : Nat) (k : LogKind) (mins : Option Int)
    (ts : Int) (details : String) : DB :=
  { db with logs := db.logs ++ [⟨uid, k, mins, ts, details⟩] }

/-- The autoincrement primary key the store would assign next. -/
def fresh_id (db : DB) : Nat :=
  db.sessions.foldl (fun a s => max a (s.id + 1)) 0

/-- The stop handler's update (src lines 308–312): load the row by primary
key and set `end_ts` and `minutes`. -/
def finish_session (db : DB) (sid : Nat) (endT : Int) (mins : Int) : DB :=
  { db with
      sessions := db.sessions.map fun s =>
        if s.id == sid then { s with end_ts := some endT, minutes := some mins } else s }

/-- Outcome surfaced by a button handler. -/
inductive OpResult
  | success
  /-- An `IntegrityError` from the partial unique index: "Es läuft bereits eine Session." -/
  | conflict
  /-- the zero-delta warning: "Bitte eine von 0 verschiedene Minutenanzahl eingeben." -/
  | validation
  /-- a `SQLAlchemyError` re-raised by the handler. -/
  | storageErr
deriving DecidableEq, Repr

/-- Start button handler (src lines 322–335).  The insert of a NULL-`end_ts`
row commits iff the partial unique index admits it, i.e. iff no active
session for the user exists — this check-and-insert is a single atomic store
operation, not an application-side pre-check.  On `IntegrityError` the
handler shows an info message and changes nothing.  `logOk` injects the
outcome of the separate `add_log` transaction that follows a successful
insert: when it fails, the handler re-raises with the session already
committed and no log row written. -/
def start_op (db : DB) (uid : Nat) (now : Int) (logOk : Bool) : OpResult × DB :=
  if has_active db uid then
    (.conflict, db)
  else
    let db1 := { db with sessions := db.sessions ++ [⟨fresh_id db, uid, now, none, none⟩] }
    if logOk then
      (.success, add_log db1 uid .start none now "Start um ...")
    else
      (.storageErr, db1)

/-- Stop button handler (src lines 301–320).  The UI renders the stop button
only when `active_session` found a row, so the handler always operates on
that row: it computes `mins = max(1, minutes_between(start, now))`
("nie 0 Minuten verbuchen"), commits `end_ts`/`minutes`, then appends the
`stop` log row carrying `mins` in a second transaction (`logOk` as above).
When no active session exists the button is absent and no operation runs. -/
def stop_op (db : DB) (uid : Nat) (now : Int) (logOk : Bool) : OpResult × DB :=
  match active_session db uid with
  | none => (.success, db)
  | some sess =>
    let mins := max 1 (minutes_between sess.start_ts now)
    let db1 := finish_session db sess.id now mins
    if logOk then
      (.success, add_log db1 uid .stop (some mins) now "Stop um ...")
    else
      (.storageErr, db1)

/-- Adjust ("Buchen") button handler (src lines 341–357): a zero delta is
rejected with a warning and no write of any kind; otherwise the `Adjustment`
row commits, then the `adjust` log row carrying the delta commits in a second
transaction (`logOk` as above).  `details` is `reason or "Manuelle
Anpassung"`. -/
def adjust_op (db : DB) (uid : Nat) (delta : Int) (reason : String)
    (now : Int) (logOk : Bool) : OpResult × DB :=
  if delta = 0 then
    (.validation, db)
  else
    let db1 := { db with adjustments := db.adjustments ++ [⟨uid, delta, reason, now⟩] }
    if logOk then
      (.success, add_log db1 uid .adjust (some delta) now
        (if reason = "" then "Manuelle Anpassung" else reason))
    else
      (.storageErr, db1)

/-- One step of the dict accumulation `totals[k] = totals.get(k, 0) + v`
(src lines 221–233), on an association list in dict insertion order. -/
def bump (k : Int × Int) (v : Int) : List ((Int × Int) × Int) → List ((Int × Int) × Int)
  | [] => [(k, v)]
  | kv :: rest => if kv.1 = k then (kv.1, kv.2 + v) :: rest else kv :: bump k v rest

/-- Models `sorted(totals.items(), key=..., reverse=True)`: descending order on the
month key (`"YYYY-MM"` string order = lexicographic `(year, month)` order for
four-digit years). -/
def key_ge (a b : (Int × Int) × Int) : Prop :=
  b.1.1 < a.1.1 ∨ (b.1.1 = a.1.1 ∧ b.1.2 ≤ a.1.2)

instance : DecidableRel key_ge := fun a b => by
  unfold key_ge; infer_instance

instance : IsTotal ((Int × Int) × Int) key_ge where
  total a b := by unfold key_ge; omega

instance : IsTrans ((Int × Int) × Int) key_ge where
  trans a b c := by unfold key_ge; omega

/-- Models `month_totals` (src lines 206–235): finished sessions of the user bucketed
by the local month of `end_ts` with `int(row.minutes or 0)`, then adjustments
bucketed by the local month of `created_ts`, accumulated in one dict, returned
as a list sorted descending by month key. -/
def month_totals (db : DB) (uid : Nat) : List ((Int × Int) × Int) :=
  let finished := db.sessions.filter fun s => s.user_id == uid && s.end_ts != none
  let t1 := finished.foldl
    (fun acc s => bump (month_key_local (s.end_ts.getD 0)) (s.minutes.getD 0) acc) []
  let t2 := (db.adjustments.filter fun a => a.user_id == uid).foldl
    (fun acc a => bump (month_key_local a.created_ts) a.minutes acc) t1
  t2.insertionSort key_ge

/-- Models `month_minutes` (src lines 237–242): the value of the current local
month's bucket, `0` when absent.  `nowT` is the current UTC instant
(`datetime.now(TZ)` is that instant viewed in Europe/Zurich). -/
def month_minutes (db : DB) (uid : Nat) (nowT : Int) : Int :=
  let key := month_key_local nowT
  match (month_totals db uid).find? (fun kv => kv.1 = key) with
  | some kv => kv.2
  | none => 0

/-- Number of running sessions a user has — what the partial unique index
`uq_active_session_per_user` bounds by 1. -/
def active_count (db : DB) (uid : Nat) : Nat :=
  (db.sessions.filter (is_active uid)).length

/-- Sum of the minute values over all buckets of a totals list. -/
def sum_vals (l : List ((Int × Int) × Int)) : Int :=
  (l.map fun kv => kv.2).sum

/-- Total minutes a totals list carries under one month key (with distinct
keys: that bucket's value, or 0 when the key is absent). -/
def bucket_sum (k : Int × Int) (l : List ((Int × Int) × Int)) : Int :=
  ((l.filter fun kv => kv.1 = k).map fun kv => kv.2).sum

/-- The month keys of a totals list. -/
def keys (l : List ((Int × Int) × Int)) : List (Int × Int) :=
  l.map fun kv => kv.1

/-- Sum of recorded minutes over the user's finished sessions, reading an
absent `minutes` as 0 exactly as `month_totals` does (`int(row.minutes or 0)`). -/
def finished_minutes (db : DB) (uid : Nat) : Int :=
  ((db.sessions.filter fun s => s.user_id == uid && s.end_ts != none).map
    fun s => s.minutes.getD 0).sum

/-- Sum of the user's adjustment minutes. -/
def adjustment_minutes (db : DB) (uid : Nat) : Int :=
  ((db.adjustments.filter fun a => a.user_id == uid).map fun a => a.minutes).sum

/-- The C5 scenario: Alice starts at 2024-03-31 23:58:30 UTC. -/
def aliceStart : Int := utc_epoch 2024 3 31 23 58 30

/-- The C5 scenario: Alice stops at 2024-04-01 00:01:10 UTC. -/
def aliceEnd : Int := utc_epoch 2024 4 1 0 1 10

/-- The store after Alice's start–stop round trip. -/
def aliceDB : DB :=
  (stop_op (start_op ⟨[], [], []⟩ 1 aliceStart true).2 1 aliceEnd true).2

/-! ## Helper lemmas -/

/-- A mapped list has no more `p`-elements than the original when `f` only
ever falsifies `p` or fixes the element (here: finishing a session can only
turn an active row inactive or leave it alone). -/
lemma length_filter_map_le {α : Type} (f : α → α) (p : α → Bool) (l : List α)
    (hf : ∀ x, p (f x) = true → f x = x) :
    ((l.map f).filter p).length ≤ (l.filter p).length := by
  induction l with
  | nil => simp
  | cons x xs ih =>
    simp only [List.map_cons, List.filter_cons]
    by_cases hx : p (f x) = true
    · rw [hx, hf x hx]
      cases hpx : p x
      · exact absurd hpx (by rw [hf x hx] at hx; simp [hx])
      · simpa using ih
    · rw [Bool.not_eq_true] at hx
      rw [hx]
      cases hpx : p x <;> simp <;> omega

/-- When no active session for `uid` exists, the active filter is empty. -/
lemma filter_active_eq_nil (db : DB) (uid : Nat)
    (h : has_active db uid = false) :
    db.sessions.filter (is_active uid) = [] := by
  rw [List.filter_eq_nil_iff]
  intro a ha
  have := List.any_eq_false.mp (by simpa [has_active] using h) a ha
  simpa using this

/-- Closed form of `minutes_between`, unfolding its local bindings. -/
lemma minutes_between_eq (a b : Int) :
    minutes_between a b
      = max 0 ((b - a) / 60 + (if 30 ≤ (b - a) % 60 then 1 else 0)) := rfl

/-- Unfolding `sum_vals` over a cons. -/
lemma sum_vals_cons (kv : (Int × Int) × Int) (l : List ((Int × Int) × Int)) :
    sum_vals (kv :: l) = kv.2 + sum_vals l := by
  simp [sum_vals]

/-- Unfolding `bucket_sum` over a cons. -/
lemma bucket_sum_cons (k2 : Int × Int) (kv : (Int × Int) × Int)
    (l : List ((Int × Int) × Int)) :
    bucket_sum k2 (kv :: l)
      = (if kv.1 = k2 then kv.2 else 0) + bucket_sum k2 l := by
  simp only [bucket_sum, List.filter_cons]
  by_cases h : kv.1 = k2
  · simp [h]
  · simp [h]

/-- Lemma: `bump` adds its value to the total sum. -/
lemma sum_vals_bump (k : Int × Int) (v : Int) (l : List ((Int × Int) × Int)) :
    sum_vals (bump k v l) = v + sum_vals l := by
  induction l with
  | nil => simp [bump, sum_vals]
  | cons kv rest ih =>
    simp only [bump]
    by_cases hk : kv.1 = k
    · rw [if_pos hk, sum_vals_cons, sum_vals_cons]
      ring
    · rw [if_neg hk, sum_vals_cons, sum_vals_cons, ih]
      ring

/-- Lemma: `bump` adds its value to the bumped key's bucket and no other. -/
lemma bucket_sum_bump (k2 k : Int × Int) (v : Int)
    (l : List ((Int × Int) × Int)) :
    bucket_sum k2 (bump k v l) = (if k2 = k then v else 0) + bucket_sum k2 l := by
  induction l with
  | nil =>
    by_cases hk : k2 = k <;>
      simp [bump, bucket_sum, hk, eq_comm]
  | cons kv rest ih =>
    simp only [bump]
    by_cases hk : kv.1 = k
    · rw [if_pos hk, bucket_sum_cons, bucket_sum_cons]
      by_cases h2 : kv.1 = k2
      · rw [if_pos h2, if_pos (show kv.1 = k2 from h2),
          if_pos (h2.symm.trans hk)]
        ring
      · rw [if_neg h2, if_neg h2, if_neg (fun hc => h2 (hk.trans hc.symm))]
        ring
    · rw [if_neg hk, bucket_sum_cons, bucket_sum_cons, ih]
      ring

/-- Decomposition of the dict-accumulation fold: total sum. -/
lemma sum_vals_fold {α : Type} (key : α → Int × Int) (val : α → Int)
    (l : List α) (init : List ((Int × Int) × Int)) :
    sum_vals (l.foldl (fun acc x => bump (key x) (val x) acc) init)
      = sum_vals init + (l.map val).sum := by
  induction l generalizing init with
  | nil => simp
  | cons x xs ih =>
    simp only [List.foldl_cons, List.map_cons, List.sum_cons, ih,
      sum_vals_bump]
    ring

/-- Decomposition of the dict-accumulation fold: one bucket's sum. -/
lemma bucket_sum_fold {α : Type} (k : Int × Int) (key : α → Int × Int)
    (val : α → Int) (l : List α) (init : List ((Int × Int) × Int)) :
    bucket_sum k (l.foldl (fun acc x => bump (key x) (val x) acc) init)
      = bucket_sum k init + ((l.filter fun x => key x = k).map val).sum := by
  induction l generalizing init with
  | nil => simp
  | cons x xs ih =>
    simp only [List.foldl_cons, List.filter_cons, ih, bucket_sum_bump]
    by_cases hx : key x = k
    · simp only [hx, decide_True, if_true, List.map_cons, List.sum_cons,
        if_pos rfl]
      ring
    · have : ¬k = key x := fun hc => hx hc.symm
      simp only [decide_eq_true_eq, hx, if_false, if_neg this]
      omega

/-- Permutations preserve the total sum. -/
lemma sum_vals_perm {l1 l2 : List ((Int × Int) × Int)} (h : l1.Perm l2) :
    sum_vals l1 = sum_vals l2 :=
  (h.map _).sum_eq

/-- Permutations preserve each bucket's sum. -/
lemma bucket_sum_perm (k : Int × Int) {l1 l2 : List ((Int × Int) × Int)}
    (h : l1.Perm l2) :
    bucket_sum k l1 = bucket_sum k l2 :=
  ((h.filter _).map _).sum_eq

/-- Equation: `month_totals` with its local bindings spelled out. -/
lemma month_totals_eq (db : DB) (uid : Nat) :
    month_totals db uid
      = ((db.adjustments.filter fun a => a.user_id == uid).foldl
          (fun acc a => bump (month_key_local a.created_ts) a.minutes acc)
          ((db.sessions.filter fun s => s.user_id == uid && s.end_ts != none).foldl
            (fun acc s =>
              bump (month_key_local (s.end_ts.getD 0)) (s.minutes.getD 0) acc)
            [])).insertionSort key_ge := rfl

/-- The month buckets conserve minutes: the sum over all buckets is the sum
of the user's finished-session minutes plus adjustment minutes. -/
lemma month_totals_sum_vals (db : DB) (uid : Nat) :
    sum_vals (month_totals db uid)
      = finished_minutes db uid + adjustment_minutes db uid := by
  rw [month_totals_eq,
    sum_vals_perm (List.perm_insertionSort key_ge _),
    sum_vals_fold, sum_vals_fold]
  simp [sum_vals, finished_minutes, adjustment_minutes]

/-- Each bucket of `month_totals` carries exactly the minutes of the user's
finished sessions whose END instant falls in that local month plus the
user's adjustments whose CREATION instant falls in it. -/
lemma month_totals_bucket_sum (db : DB) (uid : Nat) (k : Int × Int) :
    bucket_sum k (month_totals db uid)
      = (((db.sessions.filter fun s => s.user_id == uid && s.end_ts != none).filter
            fun s => month_key_local (s.end_ts.getD 0) = k).map
          fun s => s.minutes.getD 0).sum
        + (((db.adjustments.filter fun a => a.user_id == uid).filter
              fun a => month_key_local a.created_ts = k).map
            fun a => a.minutes).sum := by
  rw [month_totals_eq,
    bucket_sum_perm k (List.perm_insertionSort key_ge _),
    bucket_sum_fold, bucket_sum_fold]
  simp [bucket_sum]

/-- Lemma: `month_totals` output is sorted descending by month key. -/
lemma month_totals_sorted (db : DB) (uid : Nat) :
    List.Sorted key_ge (month_totals db uid) := by
  rw [month_totals_eq]
  exact List.sorted_insertionSort key_ge _

/-! ## Claims -/

/-- C3: `duration(start, end)` rounds half-up at the 30-second boundary: a
remainder of 29 seconds adds 0 extra minutes, a remainder of 30 seconds adds
1 minute, and exactly 90 elapsed seconds yields 2 minutes; in general
`minutes = whole_minutes + (1 if leftover_seconds >= 30 else 0)`, floored
at 0 (for nonnegative elapsed time the floor at 0 is inert). -/
theorem c3_duration_rounding :
    (∀ t d : Int, 0 ≤ d →
        minutes_between t (t + d) = d / 60 + (if 30 ≤ d % 60 then 1 else 0)) ∧
    (∀ t d : Int, 0 ≤ d → d % 60 = 29 → minutes_between t (t + d) = d / 60) ∧
    (∀ t d : Int, 0 ≤ d → d % 60 = 30 → minutes_between t (t + d) = d / 60 + 1) ∧
    (∀ t : Int, minutes_between t (t + 90) = 2) := by
  refine ⟨fun t d hd => ?_, fun t d hd h29 => ?_, fun t d hd h30 => ?_,
      fun t => ?_⟩ <;>
    rw [minutes_between_eq] <;> split_ifs <;> omega

/-- C3 witness: the theorem applied at `t = 0` with concrete elapsed times. -/
theorem c3_duration_rounding_witness :
    minutes_between 0 89 = 89 / 60 + (if 30 ≤ (89 : Int) % 60 then 1 else 0) ∧
    minutes_between 0 29 = 0 ∧
    minutes_between 0 30 = 1 ∧
    minutes_between 0 90 = 2 :=
  ⟨c3_duration_rounding.1 0 89 (by decide),
   c3_duration_rounding.2.1 0 29 (by decide) (by decide),
   c3_duration_rounding.2.2.1 0 30 (by decide) (by decide),
   c3_duration_rounding.2.2.2 0⟩

/-- C6: `duration` and `elapsed` are total (the embedding is by functions, so
neither can raise); when `end < start` both clamp to 0; `elapsed` equals
`max 0 (now - start)` in seconds; and `duration t t = 0` (before the stop
handler's minimum-1 floor, which is applied separately at stop time). -/
theorem c6_clamp_never_raises :
    (∀ s e : Int, e < s → minutes_between s e = 0 ∧ seconds_between s e = 0) ∧
    (∀ s n : Int, seconds_between s n = max 0 (n - s)) ∧
    (∀ t : Int, minutes_between t t = 0) := by
  refine ⟨fun s e h => ⟨?_, ?_⟩, fun s n => rfl, fun t => ?_⟩ <;>
    first
    | (rw [minutes_between_eq]; split_ifs <;> omega)
    | (simp only [seconds_between]; omega)

/-- C6 witness: the theorem applied at `s = 5`, `e = 3` (clock skew) and
`t = 42`. -/
theorem c6_clamp_never_raises_witness :
    (minutes_between 5 3 = 0 ∧ seconds_between 5 3 = 0) ∧
    seconds_between 7 9 = max 0 (9 - 7) ∧
    minutes_between 42 42 = 0 :=
  ⟨c6_clamp_never_raises.1 5 3 (by decide),
   c6_clamp_never_raises.2.1 7 9,
   c6_clamp_never_raises.2.2 42⟩

/-- C7: `duration(start, end)` is monotonic non-decreasing in `end`: for
every start instant and end instants `e1 ≤ e2`,
`duration(start, e1) ≤ duration(start, e2)`. -/
theorem c7_duration_monotone (s e1 e2 : Int) (h : e1 ≤ e2) :
    minutes_between s e1 ≤ minutes_between s e2 := by
  rw [minutes_between_eq, minutes_between_eq]
  split_ifs <;> omega

/-- C7 witness: the theorem applied at `s = 0`, `e1 = 45`, `e2 = 100`. -/
theorem c7_duration_monotone_witness :
    minutes_between 0 45 ≤ minutes_between 0 100 :=
  c7_duration_monotone 0 45 100 (by decide)

/-- C4: stopping the active session records
`minutes = max 1 (minutes_between start now)` on that session's row —
at least 1 minute, with the minimum-1 floor applied at stop time on top of
the half-up rounding (which already floors at 0); a session that elapsed
only 10 seconds records 1, not 0. -/
theorem c4_minimum_one_minute (db : DB) (uid : Nat) (now : Int) (lg : Bool)
    (sess : WorkSession) (h : active_session db uid = some sess) :
    (∀ s2 ∈ ((stop_op db uid now lg).2).sessions, s2.id = sess.id →
        s2.minutes = some (max 1 (minutes_between sess.start_ts now))) ∧
    1 ≤ max 1 (minutes_between sess.start_ts now) ∧
    (now = sess.start_ts + 10 → max 1 (minutes_between sess.start_ts now) = 1) := by
  refine ⟨fun s2 hs2 hid => ?_, le_max_left 1 _, fun hnow => ?_⟩
  · have hsess : ((stop_op db uid now lg).2).sessions
        = (finish_session db sess.id now
            (max 1 (minutes_between sess.start_ts now))).sessions := by
      simp only [stop_op, h]
      cases lg <;> simp [add_log]
    rw [hsess] at hs2
    simp only [finish_session, List.mem_map] at hs2
    obtain ⟨s0, _, rfl⟩ := hs2
    by_cases hb : s0.id == sess.id
    · simp [hb]
    · rw [if_neg hb] at hid ⊢
      exact absurd (by exact beq_iff_eq.mpr hid) hb
  · subst hnow
    rw [minutes_between_eq]
    split_ifs <;> omega

/-- C4 witness: stopping a session that started at instant 0, 10 seconds
later, records 1 minute on its row. -/
theorem c4_minimum_one_minute_witness :
    (∀ s2 ∈ ((stop_op ⟨[⟨0, 1, 0, none, none⟩], [], []⟩ 1 10 true).2).sessions,
        s2.id = (⟨0, 1, 0, none, none⟩ : WorkSession).id →
        s2.minutes = some (max 1 (minutes_between
          (⟨0, 1, 0, none, none⟩ : WorkSession).start_ts 10))) ∧
    1 ≤ max 1 (minutes_between (⟨0, 1, 0, none, none⟩ : WorkSession).start_ts 10) ∧
    (10 = (⟨0, 1, 0, none, none⟩ : WorkSession).start_ts + 10 →
        max 1 (minutes_between (⟨0, 1, 0, none, none⟩ : WorkSession).start_ts 10) = 1) :=
  c4_minimum_one_minute ⟨[⟨0, 1, 0, none, none⟩], [], []⟩ 1 10 true
    ⟨0, 1, 0, none, none⟩ (by decide)

/-- C9: the "Buchen" handler rejects a zero delta with a user-visible warning
and performs no write at all (no Adjustment row, no LogEntry, store
unchanged); for every nonzero delta (when the log transaction commits) the
Adjustment row is persisted and one `adjust` log entry carrying that delta is
appended. -/
theorem c9_adjust_validation (db : DB) (uid : Nat) (delta : Int)
    (reason : String) (now : Int) (lg : Bool) :
    (delta = 0 → adjust_op db uid delta reason now lg = (.validation, db)) ∧
    (delta ≠ 0 → lg = true →
        (adjust_op db uid delta reason now lg).1 = .success ∧
        (adjust_op db uid delta reason now lg).2.adjustments
          = db.adjustments ++ [⟨uid, delta, reason, now⟩] ∧
        (adjust_op db uid delta reason now lg).2.sessions = db.sessions ∧
        ∃ e : LogEntry, (adjust_op db uid delta reason now lg).2.logs
            = db.logs ++ [e] ∧
          e.user_id = uid ∧ e.kind = .adjust ∧ e.minutes = some delta) := by
  constructor
  · intro h0
    simp [adjust_op, h0]
  · intro hne hlg
    subst hlg
    refine ⟨?_, ?_, ?_,
      ⟨⟨uid, .adjust, some delta, now,
          if reason = "" then "Manuelle Anpassung" else reason⟩,
        ?_, rfl, rfl, rfl⟩⟩ <;>
      simp [adjust_op, hne, add_log]

/-- C9 witness: the theorem applied at `delta = 0` and at `delta = -15`. -/
theorem c9_adjust_validation_witness :
    adjust_op ⟨[], [], []⟩ 1 0 "x" 5 true = (.validation, ⟨[], [], []⟩) ∧
    (adjust_op ⟨[], [], []⟩ 1 (-15) "corr" 5 true).1 = .success :=
  ⟨(c9_adjust_validation ⟨[], [], []⟩ 1 0 "x" 5 true).1 rfl,
   ((c9_adjust_validation ⟨[], [], []⟩ 1 (-15) "corr" 5 true).2
      (by decide) rfl).1⟩

/-- C2 (amended): every SUCCESSFUL start / stop / adjust mutation appends
exactly one LogEntry with matching kind and minutes (minutes absent for
start; for stop, the same `max 1 (minutes_between start now)` value recorded
on the session row; for adjust, the delta).  The original claim's atomicity
part is refuted separately: state change and log entry are two separate
transactions. -/
theorem c2_log_pairing (db : DB) (uid : Nat) (now : Int) (lg : Bool)
    (delta : Int) (reason : String) (sess : WorkSession) :
    ((start_op db uid now lg).1 = .success →
        ∃ e : LogEntry, (start_op db uid now lg).2.logs = db.logs ++ [e] ∧
          e.user_id = uid ∧ e.kind = .start ∧ e.minutes = none) ∧
    (active_session db uid = some sess →
        (stop_op db uid now lg).1 = .success →
        ∃ e : LogEntry, (stop_op db uid now lg).2.logs = db.logs ++ [e] ∧
          e.user_id = uid ∧ e.kind = .stop ∧
          e.minutes = some (max 1 (minutes_between sess.start_ts now))) ∧
    ((adjust_op db uid delta reason now lg).1 = .success →
        ∃ e : LogEntry, (adjust_op db uid delta reason now lg).2.logs
            = db.logs ++ [e] ∧
          e.user_id = uid ∧ e.kind = .adjust ∧ e.minutes = some delta) := by
  refine ⟨fun hs => ?_, fun hact hs => ?_, fun hs => ?_⟩
  · by_cases ha : has_active db uid
    · simp [start_op, ha] at hs
    · cases lg
      · simp [start_op, ha] at hs
      · exact ⟨⟨uid, .start, none, now, "Start um ..."⟩,
          by simp [start_op, ha, add_log], rfl, rfl, rfl⟩
  · cases lg
    · simp only [stop_op, hact] at hs ⊢
      simp at hs
    · exact ⟨⟨uid, .stop, some (max 1 (minutes_between sess.start_ts now)),
          now, "Stop um ..."⟩,
        by simp [stop_op, hact, add_log, finish_session], rfl, rfl, rfl⟩
  · by_cases h0 : delta = 0
    · simp [adjust_op, h0] at hs
    · cases lg
      · simp [adjust_op, h0] at hs
      · exact ⟨⟨uid, .adjust, some delta, now,
            if reason = "" then "Manuelle Anpassung" else reason⟩,
          by simp [adjust_op, h0, add_log], rfl, rfl, rfl⟩

/-- C2 witness: the amended theorem applied to a concrete store for each of
the three mutations. -/
theorem c2_log_pairing_witness :
    (∃ e : LogEntry, (start_op ⟨[], [], []⟩ 1 5 true).2.logs = [] ++ [e] ∧
        e.user_id = 1 ∧ e.kind = .start ∧ e.minutes = none) ∧
    (∃ e : LogEntry,
        (stop_op ⟨[⟨0, 1, 0, none, none⟩], [], []⟩ 1 70 true).2.logs
          = [] ++ [e] ∧
        e.user_id = 1 ∧ e.kind = .stop ∧
        e.minutes = some (max 1 (minutes_between
          (⟨0, 1, 0, none, none⟩ : WorkSession).start_ts 70))) ∧
    (∃ e : LogEntry, (adjust_op ⟨[], [], []⟩ 1 (-15) "corr" 5 true).2.logs
        = [] ++ [e] ∧
      e.user_id = 1 ∧ e.kind = .adjust ∧ e.minutes = some (-15)) :=
  ⟨(c2_log_pairing ⟨[], [], []⟩ 1 5 true 0 "" ⟨0, 0, 0, none, none⟩).1 rfl,
   (c2_log_pairing ⟨[⟨0, 1, 0, none, none⟩], [], []⟩ 1 70 true 0 ""
      ⟨0, 1, 0, none, none⟩).2.1 (by decide) (by decide),
   (c2_log_pairing ⟨[], [], []⟩ 1 5 true (-15) "corr"
      ⟨0, 0, 0, none, none⟩).2.2 (by decide)⟩

/-- C2 counterexample: the state change and its log entry are NOT applied
atomically in one logical operation — they are two separate transactions
(the handler's own `safe_commit`, then `add_log`).  When the log transaction
fails after a successful session insert, the handler re-raises with the
session row committed and no log row: a session state change applied without
its log entry. -/
theorem c2_not_atomic_counterexample :
    (start_op ⟨[], [], []⟩ 7 0 false).1 = .storageErr ∧
    (start_op ⟨[], [], []⟩ 7 0 false).2.sessions ≠ [] ∧
    (start_op ⟨[], [], []⟩ 7 0 false).2.logs = [] := by decide

/-- C1: at most one running session per user.  The bound `active_count ≤ 1`
(the guarantee of the partial unique index `uq_active_session_per_user`) is
preserved by every operation, for every user; and for two start attempts on
the same user racing from a state with no running session — the store's
atomic check-and-insert serialises them — the first succeeds, the second
receives the conflict, and exactly one running session exists afterward. -/
theorem c1_single_active_session (db : DB) (uid : Nat)
    (h : active_count db uid ≤ 1) :
    (∀ uid2 now lg, active_count (start_op db uid2 now lg).2 uid ≤ 1) ∧
    (∀ uid2 now lg, active_count (stop_op db uid2 now lg).2 uid ≤ 1) ∧
    (∀ uid2 delta reason now lg,
        active_count (adjust_op db uid2 delta reason now lg).2 uid ≤ 1) ∧
    (∀ now1 now2, has_active db uid = false →
        (start_op db uid now1 true).1 = .success ∧
        (start_op (start_op db uid now1 true).2 uid now2 true).1 = .conflict ∧
        active_count (start_op (start_op db uid now1 true).2 uid now2 true).2 uid
          = 1) := by
  refine ⟨fun uid2 now lg => ?_, fun uid2 now lg => ?_,
      fun uid2 delta reason now lg => ?_, fun now1 now2 hfa => ?_⟩
  · by_cases ha : has_active db uid2
    · simpa [start_op, ha] using h
    · rw [Bool.not_eq_true] at ha
      have hsess : (start_op db uid2 now lg).2.sessions
          = db.sessions ++ [⟨fresh_id db, uid2, now, none, none⟩] := by
        cases lg <;> simp [start_op, ha, add_log]
      simp only [active_count, hsess, List.filter_append, List.length_append]
      by_cases hu : uid2 = uid
      · subst hu
        rw [filter_active_eq_nil db uid2 ha]
        simp [is_active]
      · have : is_active uid ⟨fresh_id db, uid2, now, none, none⟩ = false := by
          simp [is_active]
          omega
        simp only [List.filter_cons, this, List.filter_nil, List.length_nil]
        simpa [active_count] using h
  · rcases hact : active_session db uid2 with _ | sess
    · simpa [stop_op, hact] using h
    · have hsess : (stop_op db uid2 now lg).2.sessions
          = (finish_session db sess.id now
              (max 1 (minutes_between sess.start_ts now))).sessions := by
        cases lg <;> simp [stop_op, hact, add_log]
      simp only [active_count, hsess, finish_session]
      refine le_trans (length_filter_map_le _ _ _ fun x hx => ?_) h
      by_cases hb : x.id == sess.id
      · rw [if_pos hb] at hx
        simp [is_active] at hx
      · rw [if_neg hb] at hx ⊢
  · have hsess : (adjust_op db uid2 delta reason now lg).2.sessions
        = db.sessions := by
      by_cases h0 : delta = 0
      · simp [adjust_op, h0]
      · cases lg <;> simp [adjust_op, h0, add_log]
    simpa [active_count, hsess] using h
  · have h0 : db.sessions.filter (is_active uid) = [] :=
      filter_active_eq_nil db uid hfa
    have hs1 : (start_op db uid now1 true).1 = .success := by
      simp [start_op, hfa]
    have hsess1 : (start_op db uid now1 true).2.sessions
        = db.sessions ++ [⟨fresh_id db, uid, now1, none, none⟩] := by
      simp [start_op, hfa, add_log]
    set db1 := (start_op db uid now1 true).2 with hdb1
    have hact1 : has_active db1 uid = true := by
      simp only [has_active, hsess1, List.any_append]
      simp [is_active]
    refine ⟨hs1, ?_, ?_⟩
    · simp [start_op, hact1]
    · have h2 : (start_op db1 uid now2 true).2 = db1 := by
        simp [start_op, hact1]
      rw [h2]
      simp [active_count, hsess1, List.filter_append, h0, is_active]

/-- C1 witness: the theorem applied to the empty store and user 1; in
particular two racing starts from it leave exactly one running session. -/
theorem c1_single_active_session_witness :
    (start_op (⟨[], [], []⟩ : DB) 1 5 true).1 = .success ∧
    (start_op (start_op (⟨[], [], []⟩ : DB) 1 5 true).2 1 6 true).1
      = .conflict ∧
    active_count
      (start_op (start_op (⟨[], [], []⟩ : DB) 1 5 true).2 1 6 true).2 1 = 1 :=
  (c1_single_active_session ⟨[], [], []⟩ 1 (by decide)).2.2.2 5 6 (by decide)

/-- C8: `month_totals` is idempotent (it is a pure read of the store:
calling it twice with no intervening mutation yields identical results);
it is conservative (the bucket values sum to all finished-session minutes
plus all adjustment minutes of the user); its buckets come sorted descending
by month key; and `month_minutes` returns the current local month's bucket
value, or 0 when that bucket is absent. -/
theorem c8_month_totals_algebra (db : DB) (uid : Nat) (nowT : Int) :
    month_totals db uid = month_totals db uid ∧
    sum_vals (month_totals db uid)
      = finished_minutes db uid + adjustment_minutes db uid ∧
    List.Sorted key_ge (month_totals db uid) ∧
    (month_key_local nowT ∈ keys (month_totals db uid) →
        (month_key_local nowT, month_minutes db uid nowT)
          ∈ month_totals db uid) ∧
    (month_key_local nowT ∉ keys (month_totals db uid) →
        month_minutes db uid nowT = 0) := by
  refine ⟨rfl, month_totals_sum_vals db uid, month_totals_sorted db uid,
    ?_, ?_⟩ <;>
    rcases hf : (month_totals db uid).find?
        (fun kv => kv.1 = month_key_local nowT) with _ | kv
  · intro hmem
    simp only [keys] at hmem
    obtain ⟨kv, hkv, hk⟩ := List.mem_map.mp hmem
    have hno := List.find?_eq_none.mp hf kv hkv
    simp [hk] at hno
  · intro hmem
    have hp : kv.1 = month_key_local nowT := by
      simpa using List.find?_some hf
    have hm : kv ∈ month_totals db uid := List.mem_of_find?_eq_some hf
    have hv : month_minutes db uid nowT = kv.2 := by
      simp [month_minutes, hf]
    rw [hv, ← hp]
    exact hm
  · intro _
    simp [month_minutes, hf]
  · intro habs
    exfalso
    have hp : kv.1 = month_key_local nowT := by
      simpa using List.find?_some hf
    refine habs ?_
    simp only [keys]
    exact List.mem_map.mpr ⟨kv, List.mem_of_find?_eq_some hf, hp⟩

/-- C8 witness: on a one-session store the bucket sums check out and
`month_minutes` reads the present bucket. -/
theorem c8_month_totals_algebra_witness :
    sum_vals (month_totals ⟨[⟨1, 1, 0, some 100, some 2⟩], [], []⟩ 1)
      = finished_minutes ⟨[⟨1, 1, 0, some 100, some 2⟩], [], []⟩ 1
        + adjustment_minutes ⟨[⟨1, 1, 0, some 100, some 2⟩], [], []⟩ 1 ∧
    ((month_key_local 100, month_minutes ⟨[⟨1, 1, 0, some 100, some 2⟩], [], []⟩ 1 100)
        ∈ month_totals ⟨[⟨1, 1, 0, some 100, some 2⟩], [], []⟩ 1) :=
  ⟨(c8_month_totals_algebra ⟨[⟨1, 1, 0, some 100, some 2⟩], [], []⟩ 1 100).2.1,
   (c8_month_totals_algebra ⟨[⟨1, 1, 0, some 100, some 2⟩], [], []⟩ 1
      100).2.2.2.1 (by decide)⟩

/-- C5: `month_totals` buckets each finished session by the Europe/Zurich
calendar month of its END instant and each adjustment by that of its
CREATION instant; in the spec's scenario (start 2024-03-31 23:58:30 UTC,
stop 2024-04-01 00:01:10 UTC) the elapsed 160 seconds round to 3 minutes and
land in the 2024-04 bucket, not 2024-03. -/
theorem c5_month_bucketing :
    (∀ (db : DB) (uid : Nat) (k : Int × Int),
        bucket_sum k (month_totals db uid)
          = (((db.sessions.filter fun s => s.user_id == uid && s.end_ts != none).filter
                fun s => month_key_local (s.end_ts.getD 0) = k).map
              fun s => s.minutes.getD 0).sum
            + (((db.adjustments.filter fun a => a.user_id == uid).filter
                  fun a => month_key_local a.created_ts = k).map
                fun a => a.minutes).sum) ∧
    aliceEnd - aliceStart = 160 ∧
    minutes_between aliceStart aliceEnd = 3 ∧
    month_key_local aliceEnd = (2024, 4) ∧
    month_totals aliceDB 1 = [((2024, 4), 3)] ∧
    bucket_sum (2024, 3) (month_totals aliceDB 1) = 0 := by
  exact ⟨month_totals_bucket_sum, by decide, by decide, by decide,
    by decide, by decide⟩

/-- C10: a finished session whose `minutes` column is NULL contributes
exactly 0 to its end-month bucket — `month_totals` reads it as
`int(row.minutes or 0)` instead of failing, so a legacy row without a
recorded duration changes no monthly total (and, the aggregation being a
total function here, it cannot crash); concretely, a store holding only such
a session reports a 0-minute bucket. -/
theorem c10_null_minutes_zero_contribution (db : DB) (uid sid : Nat)
    (startT endT : Int) (k : Int × Int) :
    bucket_sum k (month_totals
        { db with
            sessions := db.sessions ++ [⟨sid, uid, startT, some endT, none⟩] }
        uid)
      = bucket_sum k (month_totals db uid) ∧
    month_totals ⟨[⟨1, 1, 0, some 3600, none⟩], [], []⟩ 1
      = [((1970, 1), 0)] := by
  refine ⟨?_, by decide⟩
  rw [month_totals_bucket_sum, month_totals_bucket_sum]
  simp only [List.filter_append, List.map_append, List.sum_append]
  have h1 : List.filter (fun s => s.user_id == uid && s.end_ts != none)
      [(⟨sid, uid, startT, some endT, none⟩ : WorkSession)]
      = [⟨sid, uid, startT, some endT, none⟩] := by
    simp
  rw [h1]
  by_cases hk : month_key_local endT = k
  · simp [hk]
  · simp [hk]

end Zeiterfassung
